import Mathlib

/-!
Verification development for the vm-dhcp-controller core: a shallow embedding of
the VM reconciler (`pkg/controller/vm`), the network resolver and pool-state
loader (`pkg/util/network.go`), and the admission validator
(`pkg/webhook/vmnetcfg/validator.go`), together with theorems settling the
frozen behavioural claims about them.

Conventions: Go maps that the code iterates and mutates deterministically are
embedded as insertion-ordered association lists with replace-in-place insert;
Go's `reflect.DeepEqual` on slices is list equality; the external resource
store is embedded by returning the list of writes a reconciliation pass issues
and applying them to an explicit world state (an `UpdateStatus` write persists
only the status field, as the Kubernetes status subresource does).
-/

/-- One entry of a per-VM network configuration: a MAC address and the logical
network name it should be served on (`networkv1.NetworkConfig`). -/
structure NetworkConfig where
  macAddress : String
  networkName : String
  deriving DecidableEq, Repr

/-- A VM network interface (`kubevirtv1.Interface`): its name and MAC address
(empty string when unset). -/
structure Interface where
  name : String
  macAddress : String
  deriving DecidableEq, Repr

/-- The Multus part of a VM network attachment: the logical network name. -/
structure MultusNet where
  networkName : String
  deriving DecidableEq, Repr

/-- A VM network attachment (`kubevirtv1.Network`): its name and, when it is a
Multus attachment, the Multus data (`none` embeds a nil `network.Multus`). -/
structure VMNetwork where
  name : String
  multus : Option MultusNet
  deriving DecidableEq, Repr

/-- The parts of a `kubevirtv1.VirtualMachine` the controller reads: namespace,
name, whether a deletion timestamp is set, the annotation map, the declared
interfaces and the declared network attachments. -/
structure VM where
  ns : String
  name : String
  deleted : Bool
  annots : List (String × String)
  interfaces : List Interface
  networks : List VMNetwork
  deriving DecidableEq, Repr

/-- Status values of a condition (`corev1.ConditionTrue` / `False` / `Unknown`). -/
inductive CStatus where
  | ctrue
  | cfalse
  | cunknown
  deriving DecidableEq, Repr

/-- A condition with status, reason and message (the `InSynced` condition of a
`VirtualMachineNetworkConfig`). -/
structure Condition where
  status : CStatus
  reason : String
  message : String
  deriving DecidableEq, Repr

/-- The parts of a `VirtualMachineNetworkConfig` resource the code reads and
writes: kind, namespace, name, the spec's network-config list, and the
`InSynced` condition (`none` embeds an unset condition). -/
structure VmNetCfg where
  kind : String
  ns : String
  name : String
  networkConfigs : List NetworkConfig
  inSynced : Option Condition
  deriving DecidableEq, Repr

/-- A `NetworkAttachmentDefinition` as the resolver reads it: only its label
map matters; `none` embeds a nil `Labels` map. -/
structure NAD where
  labels : Option (List (String × String))
  deriving DecidableEq, Repr

/-- An `IPPool` resource as returned by the resolver (identified by
namespace and name; its spec is irrelevant to the resolver claims). -/
structure IPPool where
  ns : String
  name : String
  deriving DecidableEq, Repr

/-- Association-list lookup, embedding a Go map read (`v, ok := m[k]`). -/
def lookupKV {α β : Type} [DecidableEq α] : List (α × β) → α → Option β
  | [], _ => none
  | (k, v) :: rest, k' => if k = k' then some v else lookupKV rest k'

/-- Association-list insert-or-replace, embedding a Go map write `m[k] = v`
(replaces in place, preserving insertion order for the embedding's determinism). -/
def putKV {α β : Type} [DecidableEq α] : List (α × β) → α → β → List (α × β)
  | [], k, v => [(k, v)]
  | (k', v') :: rest, k, v =>
    if k' = k then (k, v) :: rest else (k', v') :: putKV rest k v

/-- Splits a character list at the LAST occurrence of the separator character:
`some (before, after)` when the separator occurs, `none` otherwise. -/
def rsplitChars (sep : Char) : List Char → Option (List Char × List Char)
  | [] => none
  | c :: rest =>
    match rsplitChars sep rest with
    | some (pre, post) => some (c :: pre, post)
    | none => if c = sep then some ([], rest) else none

/-- Embeds `kv.RSplit(s, "/")` from the external wrangler library as used by
`GetIPPoolFromNetworkName`. Modelled from the spec: the library's source is not
part of this repository; the spec describes the split as taken at the last
`/`, with the whole string becoming the name (and the namespace empty) when no
`/` is present. -/
def rsplit (s : String) : String × String :=
  match rsplitChars '/' s.data with
  | none => ("", s)
  | some (pre, post) => (⟨pre⟩, ⟨post⟩)

/-- The namespace+name key at which `GetIPPoolFromNetworkName` looks up the
interface definition: the namespace part of the split network name, with the
fallback namespace substituted when that part is empty
(`src/pkg/util/network.go` lines 195-198). -/
def resolvedNadKey (networkName fallbackNamespace : String) : String × String :=
  let p := rsplit networkName
  (if p.1 = "" then fallbackNamespace else p.1, p.2)

/-- Label key on a NAD giving the owning pool's namespace. Modelled from the
spec: the literal lives in a util constants file not among the provided
sources; the claims depend only on the two label keys being fixed and distinct. -/
def ipPoolNamespaceLabelKey : String := "network.harvesterhci.io/ippool-namespace"

/-- Label key on a NAD giving the owning pool's name. Modelled from the spec,
as for the namespace key. -/
def ipPoolNameLabelKey : String := "network.harvesterhci.io/ippool-name"

/-- The distinct failure cases of `GetIPPoolFromNetworkName`, one constructor
per `fmt.Errorf` site in `src/pkg/util/network.go` lines 200-224, carrying the
same data the corresponding format string carries. -/
inductive ResolveErr where
  /-- "network attachment definition ns/name not found" (wraps a NotFound). -/
  | nadNotFound (ns nm : String)
  /-- "network attachment definition ns/name has no labels" (nil label map). -/
  | nadNoLabels (ns nm : String)
  /-- "network attachment definition ns/name has no label key". -/
  | nadMissingLabel (ns nm key : String)
  /-- "ippool ns/name not found" (wraps a NotFound). -/
  | poolNotFound (ns nm : String)
  deriving DecidableEq, Repr

/-- Embeds `util.GetIPPoolFromNetworkName`: split the network name, default the
namespace to the fallback, look up the NAD, require both pool labels, and look
up the labeled pool, failing with the corresponding error at each step. -/
def GetIPPoolFromNetworkName (nads : List ((String × String) × NAD))
    (pools : List ((String × String) × IPPool))
    (networkName fallbackNamespace : String) : Except ResolveErr IPPool :=
  let k := resolvedNadKey networkName fallbackNamespace
  match lookupKV nads k with
  | none => .error (.nadNotFound k.1 k.2)
  | some nad =>
    match nad.labels with
    | none => .error (.nadNoLabels k.1 k.2)
    | some lbls =>
      match lookupKV lbls ipPoolNamespaceLabelKey with
      | none => .error (.nadMissingLabel k.1 k.2 ipPoolNamespaceLabelKey)
      | some poolNs =>
        match lookupKV lbls ipPoolNameLabelKey with
        | none => .error (.nadMissingLabel k.1 k.2 ipPoolNameLabelKey)
        | some poolNm =>
          match lookupKV pools (poolNs, poolNm) with
          | none => .error (.poolNotFound poolNs poolNm)
          | some p => .ok p

/-- True when an `Except` result is a success. -/
def exceptOk {ε α : Type} : Except ε α → Bool
  | .ok _ => true
  | .error _ => false

/-- Embeds `Handler.hasIPPool` of the vm controller: resolve the network name
with the VM's namespace as fallback and report only whether a pool was found,
swallowing every error (the source logs and returns false). -/
def hasIPPool (nads : List ((String × String) × NAD))
    (pools : List ((String × String) × IPPool)) (vmNs networkName : String) : Bool :=
  exceptOk (GetIPPoolFromNetworkName nads pools networkName vmNs)

/-- The VM MAC-override annotation key (`macAddressAnnotation` in the vm
controller), "harvesterhci.io/mac-address". -/
def macAddressAnnKey : String := "harvesterhci.io/mac-address"

/-- Embeds the interface loop of `Handler.applyMACAddressAnnotation`: for each
interface whose MAC is empty and for which the parsed annotation map supplies a
non-empty MAC, set that MAC; the Bool reports whether any interface was
updated. -/
def applyToNics (macs : List (String × String)) : List Interface → List Interface × Bool
  | [] => ([], false)
  | nic :: rest =>
    let r := applyToNics macs rest
    if nic.macAddress ≠ "" then (nic :: r.1, r.2)
    else
      match lookupKV macs nic.name with
      | some m => if m ≠ "" then ({ nic with macAddress := m } :: r.1, true) else (nic :: r.1, r.2)
      | none => (nic :: r.1, r.2)

/-- Embeds `Handler.applyMACAddressAnnotation`. The JSON decoding performed by
the external `json.Unmarshal` is a parameter `parse` (`none` embeds a decode
error). An absent or empty annotation, a decode failure (which the source only
logs), or an empty decoded map all return the VM unchanged with no update
reported; the source's error return is nil on every path, so the embedding has
no error channel. -/
def applyMACAddressAnn (parse : String → Option (List (String × String)))
    (vm : VM) : VM × Bool :=
  match lookupKV vm.annots macAddressAnnKey with
  | none => (vm, false)
  | some a =>
    if a = "" then (vm, false)
    else
      match parse a with
      | none => (vm, false)
      | some macs =>
        if macs = [] then (vm, false)
        else
          let r := applyToNics macs vm.interfaces
          ({ vm with interfaces := r.1 }, r.2)

/-- Embeds the seeding loop of `Handler.OnChange` (part_000 lines 90-97): one
entry per interface with a non-empty MAC, keyed by interface name, with an
empty network name. -/
def seedNcm (nics : List Interface) : List (String × NetworkConfig) :=
  nics.foldl
    (fun acc nic =>
      if nic.macAddress = "" then acc else putKV acc nic.name ⟨nic.macAddress, ""⟩)
    []

/-- Embeds the network-name loop of `Handler.OnChange` (part_000 lines
100-110): for each Multus attachment whose name matches a seeded entry, attach
the Multus network name to that entry. -/
def attachNcm (ncm : List (String × NetworkConfig)) (nets : List VMNetwork) :
    List (String × NetworkConfig) :=
  nets.foldl
    (fun acc net =>
      match net.multus with
      | none => acc
      | some m =>
        match lookupKV acc net.name with
        | none => acc
        | some nc => putKV acc net.name { nc with networkName := m.networkName })
    ncm

/-- The network-config map of `Handler.OnChange` after seeding, network-name
attachment and removal of incomplete entries (part_000 lines 112-117), before
the pool filtering step, as a function of the interface and network lists. -/
def preFilterNcmF (ifs : List Interface) (nets : List VMNetwork) :
    List (String × NetworkConfig) :=
  (attachNcm (seedNcm ifs) nets).filter (fun p => p.2.networkName ≠ "")

/-- `preFilterNcmF` applied to a VM's declared interfaces and networks. -/
def preFilterNcm (vm : VM) : List (String × NetworkConfig) :=
  preFilterNcmF vm.interfaces vm.networks

/-- The desired mapping of `Handler.OnChange` after also dropping entries whose
network has no pool (part_000 lines 131-137), as a function of the VM fields
the derivation reads (namespace for the fallback, interfaces, networks). -/
def deriveNcmF (nads : List ((String × String) × NAD))
    (pools : List ((String × String) × IPPool)) (ns : String)
    (ifs : List Interface) (nets : List VMNetwork) :
    List (String × NetworkConfig) :=
  (preFilterNcmF ifs nets).filter (fun p => hasIPPool nads pools ns p.2.networkName)

/-- `deriveNcmF` applied to a VM's namespace, interfaces and networks. -/
def deriveNcm (nads : List ((String × String) × NAD))
    (pools : List ((String × String) × IPPool)) (vm : VM) :
    List (String × NetworkConfig) :=
  deriveNcmF nads pools vm.ns vm.interfaces vm.networks

/-- Modelled from the spec: `prepareVmNetCfg` is called by `Handler.OnChange`
but its definition is not among the provided sources. Per the spec, the per-VM
network-config resource carries the VM's namespace and name and the desired
mapping as its spec, with the condition left unset. -/
def prepareVmNetCfg (vm : VM) (ncm : List (String × NetworkConfig)) : VmNetCfg :=
  { kind := "VirtualMachineNetworkConfig"
    ns := vm.ns
    name := vm.name
    networkConfigs := ncm.map Prod.snd
    inSynced := none }

/-- Embeds `networkv1.InSynced.IsFalse`: true exactly when the condition is set
with status False. -/
def isFalseCond : Option Condition → Bool
  | some c => c.status = CStatus.cfalse
  | none => false

/-- The out-of-sync condition the vm controller writes (part_000 lines
189-191): status False, reason "NetworkConfigChanged", and the source's
message string (its typo kept verbatim). -/
def outOfSyncCond : Condition :=
  { status := CStatus.cfalse
    reason := "NetworkConfigChanged"
    message := "Network configuration of the upstrem virtual machine has been changed" }

/-- The writes a reconciliation pass can issue against the external resource
store: a VM spec update, a network-config create, a network-config (spec)
update, a network-config status-only update, and a VM re-enqueue. -/
inductive Write where
  | vmUpdate (vm : VM)
  | netcfgCreate (cfg : VmNetCfg)
  | netcfgUpdate (cfg : VmNetCfg)
  | netcfgUpdateStatus (cfg : VmNetCfg)
  | enqueue (ns nm : String)
  deriving DecidableEq, Repr

/-- True for writes that touch the per-VM network-config resource. -/
def isNetcfgWrite : Write → Bool
  | .netcfgCreate _ => true
  | .netcfgUpdate _ => true
  | .netcfgUpdateStatus _ => true
  | _ => false

/-- The state a reconciliation pass reads and writes: the VM, its per-VM
network-config resource (`none` embeds a cache NotFound), and the NAD and
IPPool caches. -/
structure World where
  vm : VM
  netcfg : Option VmNetCfg
  nads : List ((String × String) × NAD)
  pools : List ((String × String) × IPPool)
  deriving DecidableEq, Repr

/-- Embeds `Handler.OnChange` from the interface-count check onward, as a
function of the VM fields it reads (namespace, name, interfaces, networks) and
the stored resource; returns the resulting stored resource together with the
writes issued. Mirrors part_000 lines 82-201: stop when the VM has no
interfaces or the derived mapping is empty; create the resource when absent;
otherwise compare the desired spec with the stored one under
`reflect.DeepEqual` and either no-op, overwrite the spec directly when the
condition is already False, or persist a status-only out-of-sync update and
re-enqueue the VM. An `UpdateStatus` write persists only the condition (the
status subresource), so the stored spec is kept. -/
def reconcileNetcfg (nads : List ((String × String) × NAD))
    (pools : List ((String × String) × IPPool)) (ns nm : String)
    (ifs : List Interface) (nets : List VMNetwork) (stored : Option VmNetCfg) :
    Option VmNetCfg × List Write :=
  if ifs = [] then (stored, [])
  else if deriveNcmF nads pools ns ifs nets = [] then (stored, [])
  else
    let cfg : VmNetCfg :=
      ⟨"VirtualMachineNetworkConfig", ns, nm,
        (deriveNcmF nads pools ns ifs nets).map Prod.snd, none⟩
    match stored with
    | none => (some cfg, [Write.netcfgCreate cfg])
    | some old =>
      if cfg.networkConfigs = old.networkConfigs then (some old, [])
      else if isFalseCond old.inSynced then
        (some { old with networkConfigs := cfg.networkConfigs },
          [Write.netcfgUpdate { old with networkConfigs := cfg.networkConfigs }])
      else
        (some { old with inSynced := some outOfSyncCond },
          [Write.netcfgUpdateStatus { old with
              networkConfigs := cfg.networkConfigs
              inSynced := some outOfSyncCond },
            Write.enqueue ns nm])

/-- The world/write plumbing of `Handler.OnChange` around `reconcileNetcfg`:
the pass continues with the given (possibly annotation-updated) VM, keeps the
writes already issued, and applies the reconciliation outcome to the stored
resource. -/
def onChangeCore (vm : VM) (pre : List Write) (w : World) : World × List Write :=
  ({ w with
      vm := vm
      netcfg := (reconcileNetcfg w.nads w.pools vm.ns vm.name
        vm.interfaces vm.networks w.netcfg).1 },
    pre ++ (reconcileNetcfg w.nads w.pools vm.ns vm.name
      vm.interfaces vm.networks w.netcfg).2)

/-- Embeds one full `Handler.OnChange` pass: skip deleted VMs, apply the MAC
annotation (persisting a VM update and continuing with the updated VM when any
interface changed — the source does not stop the pass there), then run the
network-config reconciliation. Returns the post-pass world (the pass's writes
applied to it) together with the list of writes issued, in order. -/
def onChange (parse : String → Option (List (String × String))) (w : World) :
    World × List Write :=
  if w.vm.deleted then (w, [])
  else
    onChangeCore
      (if (applyMACAddressAnn parse w.vm).2 then (applyMACAddressAnn parse w.vm).1 else w.vm)
      (if (applyMACAddressAnn parse w.vm).2
        then [Write.vmUpdate (applyMACAddressAnn parse w.vm).1] else [])
      w

/-- The rejection error of the admission validator (`webhook.CreateErr`
formatted with the resource kind, namespace, name and the underlying cause,
`src/pkg/webhook/vmnetcfg/validator.go` line 40). -/
structure CreateErr where
  kind : String
  ns : String
  name : String
  cause : ResolveErr
  deriving DecidableEq, Repr

/-- Embeds the loop body of `Validator.Create`: resolve each network reference
of the incoming spec with the resource's own namespace as fallback, rejecting
at the first failure. -/
def validateNetworkConfigs (nads : List ((String × String) × NAD))
    (pools : List ((String × String) × IPPool)) (kind ns nm : String) :
    List NetworkConfig → Except CreateErr Unit
  | [] => .ok ()
  | nc :: rest =>
    match GetIPPoolFromNetworkName nads pools nc.networkName ns with
    | .error e => .error ⟨kind, ns, nm, e⟩
    | .ok _ => validateNetworkConfigs nads pools kind ns nm rest

/-- Embeds `Validator.Create` of the vmnetcfg admission webhook. -/
def validatorCreate (nads : List ((String × String) × NAD))
    (pools : List ((String × String) × IPPool)) (cfg : VmNetCfg) :
    Except CreateErr Unit :=
  validateNetworkConfigs nads pools cfg.kind cfg.ns cfg.name cfg.networkConfigs

/-- An IPv4 address as four byte values (the 4-byte `net.IP` slice). -/
structure IPv4 where
  a : Nat
  b : Nat
  c : Nat
  d : Nat
  deriving DecidableEq, Repr

/-- Byte-wise AND of two IPv4 addresses (`ip.Mask(mask)` per byte). -/
def and4 (x y : IPv4) : IPv4 :=
  ⟨x.a &&& y.a, x.b &&& y.b, x.c &&& y.c, x.d &&& y.d⟩

/-- Byte-wise OR of two IPv4 addresses. -/
def or4 (x y : IPv4) : IPv4 :=
  ⟨x.a ||| y.a, x.b ||| y.b, x.c ||| y.c, x.d ||| y.d⟩

/-- Byte-wise complement of an IPv4 address (`^mask[i]` on each byte). -/
def inv4 (x : IPv4) : IPv4 :=
  ⟨255 ^^^ x.a, 255 ^^^ x.b, 255 ^^^ x.c, 255 ^^^ x.d⟩

/-- One byte of a CIDR mask: `k` leading one bits, `8 - k` trailing zero bits
(for `k ≤ 8`). -/
def maskByte (k : Nat) : Nat := 255 - (2 ^ (8 - k) - 1)

/-- The 4-byte mask of a prefix length (`net.CIDRMask(n, 32)`). -/
def cidrMask (n : Nat) : IPv4 :=
  ⟨maskByte (min 8 n), maskByte (min 8 (n - 8)),
    maskByte (min 8 (n - 16)), maskByte (min 8 (n - 24))⟩

/-- Decimal value of a digit string. -/
def digitsVal (l : List Char) : Nat :=
  l.foldl (fun n c => n * 10 + (c.toNat - 48)) 0

/-- Splits a character list on a separator character, Go `strings.Split`
style: always at least one (possibly empty) part. -/
def splitOnChar (sep : Char) : List Char → List (List Char)
  | [] => [[]]
  | x :: rest =>
    match splitOnChar sep rest with
    | [] => [[]]
    | h :: t => if x = sep then [] :: h :: t else (x :: h) :: t

/-- Parses one dotted-quad octet as `net.ParseCIDR`'s IPv4 field parser does:
decimal digits only, value at most 255, and no leading zero. -/
def parseOctet (l : List Char) : Option Nat :=
  if l ≠ [] ∧ l.all Char.isDigit ∧ (l.length = 1 ∨ l.headD '0' ≠ '0') ∧ digitsVal l ≤ 255
  then some (digitsVal l) else none

/-- Parses an IPv4 dotted-quad address: exactly four octets. -/
def parseIPv4 (l : List Char) : Option IPv4 :=
  match splitOnChar '.' l with
  | [o1, o2, o3, o4] =>
    match parseOctet o1, parseOctet o2, parseOctet o3, parseOctet o4 with
    | some a, some b, some c, some d => some ⟨a, b, c, d⟩
    | _, _, _, _ => none
  | _ => none

/-- Parses a CIDR prefix length as `net.ParseCIDR` does: decimal digits only
(leading zeros tolerated), value at most 32. -/
def parseMaskLen (l : List Char) : Option Nat :=
  if l ≠ [] ∧ l.all Char.isDigit ∧ digitsVal l ≤ 32 then some (digitsVal l) else none

/-- Embeds `net.ParseCIDR` restricted to IPv4 (the pool data model is
IPv4-only): the text up to the first `/` must parse as a dotted quad and the
rest as a prefix length; returns the raw base address and the prefix length.
Modelled from the Go standard library, whose source is external to this
repository. -/
def parseCIDRv4 (s : String) : Option (IPv4 × Nat) :=
  match splitOnChar '/' s.data with
  | [addr, mask] =>
    match parseIPv4 addr, parseMaskLen mask with
    | some ip, some n => some (ip, n)
    | _, _ => none
  | _ => none

/-- The network of a parsed CIDR: the masked base address together with the
mask, as `net.ParseCIDR` returns it (`&net.IPNet{IP: ip.Mask(mask), Mask: mask}`). -/
structure IPNetM where
  ip : IPv4
  mask : IPv4
  deriving DecidableEq, Repr

/-- Embeds `util.LoadCIDR`: parse the CIDR (failing with Go's parse-error
message on malformed text), take the network address from the parsed prefix
(host bits zeroed by the mask), and compute the broadcast address by OR-ing
each network-address byte with the inverted mask byte. -/
def LoadCIDR (cidr : String) : Except String (IPNetM × IPv4 × IPv4) :=
  match parseCIDRv4 cidr with
  | none => .error ("invalid CIDR address: " ++ cidr)
  | some (base, n) =>
    let m := cidrMask n
    let netAddr := and4 base m
    .ok (⟨netAddr, m⟩, netAddr, or4 netAddr (inv4 m))

/-- Test fixture: a NAD cache with one correctly labelled definition
`default/net1` owned by pool `default/pool1`. -/
def nadsX : List ((String × String) × NAD) :=
  [(("default", "net1"),
    ⟨some [(ipPoolNamespaceLabelKey, "default"), (ipPoolNameLabelKey, "pool1")]⟩)]

/-- Test fixture: an IPPool cache holding `default/pool1`. -/
def poolsX : List ((String × String) × IPPool) :=
  [(("default", "pool1"), ⟨"default", "pool1"⟩)]

/-- Test fixture: a NAD cache whose only definition `default/net9` has a nil
label map. -/
def nadsNil : List ((String × String) × NAD) := [(("default", "net9"), ⟨none⟩)]

/-- Test fixture: a JSON decoder that fails on every input (every annotation
value malformed). -/
def pNone : String → Option (List (String × String)) := fun _ => none

/-- Test fixture: a JSON decoder recognising the single annotation value
"macmap" as the map from interface "nic1" to a MAC address. -/
def pMac : String → Option (List (String × String)) :=
  fun s => if s = "macmap" then some [("nic1", "aa:bb:cc:dd:ee:01")] else none

/-- True when a resolver result is the missing-label failure that names a
label key. -/
def isMissingLabelKeyRes : Except ResolveErr IPPool → Bool
  | .error (.nadMissingLabel _ _ _) => true
  | _ => false

/-- Association-list key removal, embedding deletion of one Go map key. -/
def removeKV {α β : Type} [DecidableEq α] : List (α × β) → α → List (α × β)
  | [], _ => []
  | (k, v) :: rest, k' =>
    if k = k' then removeKV rest k' else (k, v) :: removeKV rest k'

/-- The VM with its MAC-override annotation removed (the "annotation absent"
comparison point). -/
def eraseMacAnn (vm : VM) : VM :=
  { vm with annots := removeKV vm.annots macAddressAnnKey }

/-- Test fixture: a well-formed vmnetcfg create payload referencing the
resolvable network net1. -/
def cfgGood : VmNetCfg :=
  ⟨"VirtualMachineNetworkConfig", "default", "vm1", [⟨"aa:aa", "net1"⟩], none⟩

/-- Test fixture: a vmnetcfg create payload with an empty network-config
list. -/
def cfgEmpty : VmNetCfg :=
  ⟨"VirtualMachineNetworkConfig", "default", "vm1", [], none⟩

/-- Test fixture: a VM with one MAC-bearing interface on network net2, which
has no NAD, so its whole desired mapping filters away. -/
def vmUnres : VM :=
  ⟨"default", "vm1", false, [], [⟨"nic1", "aa:aa"⟩], [⟨"nic1", some ⟨"net2"⟩⟩]⟩

/-- Test fixture: an existing network-config resource whose condition is True
and whose stored spec names net1. -/
def oldTrue : VmNetCfg :=
  ⟨"VirtualMachineNetworkConfig", "default", "vm1", [⟨"aa:aa", "net1"⟩],
    some ⟨CStatus.ctrue, "", ""⟩⟩

/-- Test fixture: like `oldTrue` but with the condition already False. -/
def oldFalse : VmNetCfg :=
  ⟨"VirtualMachineNetworkConfig", "default", "vm1", [⟨"aa:aa", "net1"⟩],
    some ⟨CStatus.cfalse, "NetworkConfigChanged", "m"⟩⟩

/-- Test fixture: world where the VM's only network is unresolvable while a
differing resource with condition True exists. -/
def wC1x : World := ⟨vmUnres, some oldTrue, nadsX, poolsX⟩

/-- Test fixture: world where the VM's only network is unresolvable while a
differing resource with condition False exists. -/
def wC2x : World := ⟨vmUnres, some oldFalse, nadsX, poolsX⟩

/-- Test fixture: a VM whose interface lacks a MAC address and whose
MAC-override annotation supplies one, on the resolvable network net1. -/
def vmMac : VM :=
  ⟨"default", "vm1", false, [(macAddressAnnKey, "macmap")], [⟨"nic1", ""⟩],
    [⟨"nic1", some ⟨"net1"⟩⟩]⟩

/-- Test fixture: `vmMac` after the annotation has been applied. -/
def vmMacApplied : VM :=
  ⟨"default", "vm1", false, [(macAddressAnnKey, "macmap")],
    [⟨"nic1", "aa:bb:cc:dd:ee:01"⟩], [⟨"nic1", some ⟨"net1"⟩⟩]⟩

/-- Test fixture: an existing resource whose stored spec already equals the
mapping derived from `vmMacApplied`, with condition True. -/
def oldEq : VmNetCfg :=
  ⟨"VirtualMachineNetworkConfig", "default", "vm1",
    [⟨"aa:bb:cc:dd:ee:01", "net1"⟩], some ⟨CStatus.ctrue, "", ""⟩⟩

/-- Test fixture: the network config created for `vmMacApplied`. -/
def cfgMac : VmNetCfg :=
  ⟨"VirtualMachineNetworkConfig", "default", "vm1",
    [⟨"aa:bb:cc:dd:ee:01", "net1"⟩], none⟩

/-- Test fixture: world pairing `vmMac` with the already-equal resource. -/
def wC3x : World := ⟨vmMac, some oldEq, nadsX, poolsX⟩

/-- Test fixture: world pairing `vmMac` with no existing resource. -/
def wC4x : World := ⟨vmMac, none, nadsX, poolsX⟩

/-- Test fixture: a VM declaring two networks of which only net1 resolves. -/
def vmTwoNets : VM :=
  ⟨"default", "vm1", false, [],
    [⟨"nic1", "aa:aa"⟩, ⟨"nic2", "bb:bb"⟩],
    [⟨"nic1", some ⟨"net1"⟩⟩, ⟨"nic2", some ⟨"net2"⟩⟩]⟩

/-- Test fixture: world for the two-network filtering scenario. -/
def wTwoNets : World := ⟨vmTwoNets, none, nadsX, poolsX⟩

/-- Test fixture: world whose derived mapping is empty and which has no
existing resource. -/
def wEmptyD : World := ⟨vmUnres, none, nadsX, poolsX⟩

/-- Test fixture: a VM carrying a malformed (never-decodable) MAC-override
annotation value. -/
def vmBadAnn : VM :=
  ⟨"default", "vm1", false, [(macAddressAnnKey, "oops")], [⟨"nic1", "aa:aa"⟩],
    [⟨"nic1", some ⟨"net1"⟩⟩]⟩

/-- Test fixture: world pairing `vmBadAnn` with an empty store. -/
def wBadAnn : World := ⟨vmBadAnn, none, nadsX, poolsX⟩

/-- Test fixture: a VM with one MAC-bearing interface on the resolvable
network net1 and no annotation. -/
def vmRes : VM :=
  ⟨"default", "vm1", false, [], [⟨"nic1", "aa:aa"⟩], [⟨"nic1", some ⟨"net1"⟩⟩]⟩

/-- Test fixture: an existing resource whose stored spec (network "OLD")
differs from what `vmRes` derives, with condition True (Synced). -/
def oldDiffTrue : VmNetCfg :=
  ⟨"VirtualMachineNetworkConfig", "default", "vm1", [⟨"aa:aa", "OLD"⟩],
    some ⟨CStatus.ctrue, "", ""⟩⟩

/-- Test fixture: like `oldDiffTrue` but with condition False (OutOfSync). -/
def oldDiffFalse : VmNetCfg :=
  ⟨"VirtualMachineNetworkConfig", "default", "vm1", [⟨"aa:aa", "OLD"⟩],
    some ⟨CStatus.cfalse, "NetworkConfigChanged", "m"⟩⟩

/-- Test fixture: Synced world whose VM's network set changed. -/
def wSyncDiff : World := ⟨vmRes, some oldDiffTrue, nadsX, poolsX⟩

/-- Test fixture: OutOfSync world whose VM's network set changed again. -/
def wOosDiff : World := ⟨vmRes, some oldDiffFalse, nadsX, poolsX⟩

/-- Test fixture: world whose stored spec already equals the derived one. -/
def wEqRes : World := ⟨vmRes, some oldTrue, nadsX, poolsX⟩

/-- Characters of a list are absent: helper for splitting lemmas. -/
theorem rsplitChars_eq_none (sep : Char) (l : List Char) (h : sep ∉ l) :
    rsplitChars sep l = none := by
  induction l with
  | nil => rfl
  | cons c rest ih =>
    simp only [List.mem_cons, not_or] at h
    simp only [rsplitChars, ih h.2]
    rw [if_neg fun hc => h.1 hc.symm]

/-- Splitting at the last separator of `pre ++ sep :: post` (with no separator
in `post`) yields `(pre, post)`. -/
theorem rsplitChars_append (sep : Char) (pre post : List Char) (h : sep ∉ post) :
    rsplitChars sep (pre ++ sep :: post) = some (pre, post) := by
  induction pre with
  | nil =>
    simp only [List.nil_append, rsplitChars, rsplitChars_eq_none sep post h]
    simp
  | cons c rest ih =>
    simp only [List.cons_append, rsplitChars, List.append_eq, ih]

/-- A string built from a non-empty character list is not the empty string. -/
theorem stringMk_ne_empty (l : List Char) (h : l ≠ []) : (⟨l⟩ : String) ≠ "" := by
  intro hh
  exact h (congrArg String.data hh)

/-- C6 counterexample: the network name "/net1" contains a slash, yet the
namespace used for the NAD lookup is the fallback namespace, not the (empty)
substring before the last slash: with fallback "default" the resolver finds a
NAD at `default/net1`. -/
theorem c6_counterexample :
    resolvedNadKey "/net1" "default" = ("default", "net1") ∧
    resolvedNadKey "/net1" "default" ≠ ("", "net1") ∧
    exceptOk (GetIPPoolFromNetworkName nadsX poolsX "/net1" "default") = true := by
  exact ⟨by decide, by decide, by decide⟩

/-- C6 (amended): for a network name whose segment before the last slash is
non-empty, that segment is the lookup namespace and the segment after it the
name; when that segment is empty, or when the name has no slash, the fallback
namespace is used verbatim; an empty fallback with a bare name yields an empty
lookup namespace. -/
theorem c6_namespace_resolution (fb : String) :
    (∀ pre post : List Char, '/' ∉ post → pre ≠ [] →
      resolvedNadKey ⟨pre ++ '/' :: post⟩ fb = (⟨pre⟩, ⟨post⟩)) ∧
    (∀ post : List Char, '/' ∉ post →
      resolvedNadKey ⟨'/' :: post⟩ fb = (fb, ⟨post⟩)) ∧
    (∀ s : String, '/' ∉ s.data → resolvedNadKey s fb = (fb, s)) ∧
    (∀ s : String, '/' ∉ s.data → resolvedNadKey s "" = ("", s)) := by
  refine ⟨?_, ?_, ?_, ?_⟩
  · intro pre post hpost hpre
    simp only [resolvedNadKey, rsplit, rsplitChars_append '/' pre post hpost]
    rw [if_neg (stringMk_ne_empty pre hpre)]
  · intro post hpost
    simp only [resolvedNadKey, rsplit, rsplitChars,
      rsplitChars_eq_none '/' post hpost]
    simp
  · intro s hs
    simp only [resolvedNadKey, rsplit, rsplitChars_eq_none '/' s.data hs]
    simp
  · intro s hs
    simp only [resolvedNadKey, rsplit, rsplitChars_eq_none '/' s.data hs]
    simp

/-- C6 witness: the amended splitting behaviour at concrete names. -/
theorem c6_namespace_resolution_witness :
    resolvedNadKey "a/b" "fall" = ("a", "b") ∧
    resolvedNadKey "bare" "fall" = ("fall", "bare") ∧
    resolvedNadKey "bare" "" = ("", "bare") := by
  refine ⟨?_, ?_, ?_⟩
  · exact (c6_namespace_resolution "fall").1 ['a'] ['b'] (by decide) (by decide)
  · exact (c6_namespace_resolution "fall").2.2.1 "bare" (by decide)
  · exact (c6_namespace_resolution "fall").2.2.2 "bare" (by decide)

/-- C7 counterexample: for a NAD whose label map is nil, the resolver fails
with the dedicated no-labels error, which names the interface definition but
no label key, not with a missing-label error naming an absent key. -/
theorem c7_counterexample :
    GetIPPoolFromNetworkName nadsNil poolsX "net9" "default" =
      .error (.nadNoLabels "default" "net9") ∧
    isMissingLabelKeyRes (GetIPPoolFromNetworkName nadsNil poolsX "net9" "default") = false := by
  exact ⟨rfl, by decide⟩

/-- C7 (amended): the resolver fails with NotFound when the NAD is absent at
the resolved namespace+name, with the no-labels error (naming the NAD, not a
key) when the NAD's label map is nil, with a missing-label error naming the
absent key when the label map lacks the pool-namespace or pool-name key, with
NotFound when the labelled pool is absent, and otherwise returns the pool as
read from cache. -/
theorem c7_resolver_error_cases (nads : List ((String × String) × NAD))
    (pools : List ((String × String) × IPPool)) (n fb : String) :
    (lookupKV nads (resolvedNadKey n fb) = none →
      GetIPPoolFromNetworkName nads pools n fb =
        .error (.nadNotFound (resolvedNadKey n fb).1 (resolvedNadKey n fb).2)) ∧
    (∀ nad, lookupKV nads (resolvedNadKey n fb) = some nad → nad.labels = none →
      GetIPPoolFromNetworkName nads pools n fb =
        .error (.nadNoLabels (resolvedNadKey n fb).1 (resolvedNadKey n fb).2)) ∧
    (∀ nad lbls, lookupKV nads (resolvedNadKey n fb) = some nad →
      nad.labels = some lbls → lookupKV lbls ipPoolNamespaceLabelKey = none →
      GetIPPoolFromNetworkName nads pools n fb =
        .error (.nadMissingLabel (resolvedNadKey n fb).1 (resolvedNadKey n fb).2
          ipPoolNamespaceLabelKey)) ∧
    (∀ nad lbls poolNs, lookupKV nads (resolvedNadKey n fb) = some nad →
      nad.labels = some lbls → lookupKV lbls ipPoolNamespaceLabelKey = some poolNs →
      lookupKV lbls ipPoolNameLabelKey = none →
      GetIPPoolFromNetworkName nads pools n fb =
        .error (.nadMissingLabel (resolvedNadKey n fb).1 (resolvedNadKey n fb).2
          ipPoolNameLabelKey)) ∧
    (∀ nad lbls poolNs poolNm, lookupKV nads (resolvedNadKey n fb) = some nad →
      nad.labels = some lbls → lookupKV lbls ipPoolNamespaceLabelKey = some poolNs →
      lookupKV lbls ipPoolNameLabelKey = some poolNm →
      lookupKV pools (poolNs, poolNm) = none →
      GetIPPoolFromNetworkName nads pools n fb = .error (.poolNotFound poolNs poolNm)) ∧
    (∀ nad lbls poolNs poolNm p, lookupKV nads (resolvedNadKey n fb) = some nad →
      nad.labels = some lbls → lookupKV lbls ipPoolNamespaceLabelKey = some poolNs →
      lookupKV lbls ipPoolNameLabelKey = some poolNm →
      lookupKV pools (poolNs, poolNm) = some p →
      GetIPPoolFromNetworkName nads pools n fb = .ok p) := by
  refine ⟨?_, ?_, ?_, ?_, ?_, ?_⟩ <;> intros <;> simp_all [GetIPPoolFromNetworkName]

/-- C7 witness: the success path of the amended case analysis at a concrete
cache state. -/
theorem c7_resolver_error_cases_witness :
    GetIPPoolFromNetworkName nadsX poolsX "net1" "default" = .ok ⟨"default", "pool1"⟩ := by
  exact (c7_resolver_error_cases nadsX poolsX "net1" "default").2.2.2.2.2
    ⟨some [(ipPoolNamespaceLabelKey, "default"), (ipPoolNameLabelKey, "pool1")]⟩
    [(ipPoolNamespaceLabelKey, "default"), (ipPoolNameLabelKey, "pool1")]
    "default" "pool1" ⟨"default", "pool1"⟩
    (by decide) (by decide) (by decide) (by decide) (by decide)

/-- Masking with the same mask twice equals masking once (host bits, once
zeroed, stay zero). -/
theorem land_land_self (x m : Nat) : x &&& m &&& m = x &&& m := by
  apply Nat.eq_of_testBit_eq
  intro i
  simp [Nat.testBit_land, Bool.and_assoc]

/-- Byte-wise masking of an already-masked address is the identity. -/
theorem and4_mask_idem (b m : IPv4) : and4 (and4 b m) m = and4 b m := by
  simp [and4, land_land_self]

/-- C8: `LoadCIDR "10.0.0.0/24"` yields network address 10.0.0.0 (with mask
255.255.255.0) and broadcast address 10.0.0.255; for every successfully
parsed CIDR the network address has its host bits zeroed (masking it again
changes nothing) and the broadcast address is the network address OR-ed
byte-wise with the inverted mask; malformed CIDR text fails with a parse
error. -/
theorem c8_load_cidr :
    (LoadCIDR "10.0.0.0/24" =
      .ok (⟨⟨10, 0, 0, 0⟩, ⟨255, 255, 255, 0⟩⟩, ⟨10, 0, 0, 0⟩, ⟨10, 0, 0, 255⟩)) ∧
    (∀ s r, LoadCIDR s = .ok r →
      and4 r.2.1 r.1.mask = r.2.1 ∧ r.2.2 = or4 r.2.1 (inv4 r.1.mask)) ∧
    exceptOk (LoadCIDR "10.0.0.0/33") = false ∧
    exceptOk (LoadCIDR "banana") = false := by
  refine ⟨rfl, ?_, by decide, by decide⟩
  intro s r h
  unfold LoadCIDR at h
  cases hp : parseCIDRv4 s with
  | none => rw [hp] at h; simp at h
  | some v =>
    obtain ⟨base, n⟩ := v
    rw [hp] at h
    simp only [Except.ok.injEq] at h
    subst h
    exact ⟨and4_mask_idem base (cidrMask n), rfl⟩

/-- C8 witness: the general mask facts instantiated by the theorem itself at
the parsed 10.0.0.0/24. -/
theorem c8_load_cidr_witness :
    and4 ⟨10, 0, 0, 0⟩ ⟨255, 255, 255, 0⟩ = ⟨10, 0, 0, 0⟩ ∧
    (⟨10, 0, 0, 255⟩ : IPv4) = or4 ⟨10, 0, 0, 0⟩ (inv4 ⟨255, 255, 255, 0⟩) := by
  exact c8_load_cidr.2.1 "10.0.0.0/24"
    (⟨⟨10, 0, 0, 0⟩, ⟨255, 255, 255, 0⟩⟩, ⟨10, 0, 0, 0⟩, ⟨10, 0, 0, 255⟩) rfl

/-- The validator loop succeeds exactly when every network reference
resolves. -/
theorem validateNetworkConfigs_ok_iff (nads : List ((String × String) × NAD))
    (pools : List ((String × String) × IPPool)) (kind ns nm : String)
    (l : List NetworkConfig) :
    validateNetworkConfigs nads pools kind ns nm l = .ok () ↔
      ∀ nc ∈ l, exceptOk (GetIPPoolFromNetworkName nads pools nc.networkName ns) = true := by
  induction l with
  | nil => simp [validateNetworkConfigs]
  | cons nc rest ih =>
    simp only [validateNetworkConfigs]
    cases hg : GetIPPoolFromNetworkName nads pools nc.networkName ns with
    | error e => simp [hg, exceptOk]
    | ok p => simp [hg, exceptOk, ih]

/-- A validator-loop rejection carries the resource's kind, namespace and name
and the resolution error of some failing reference. -/
theorem validateNetworkConfigs_error (nads : List ((String × String) × NAD))
    (pools : List ((String × String) × IPPool)) (kind ns nm : String)
    (l : List NetworkConfig) (e : CreateErr)
    (h : validateNetworkConfigs nads pools kind ns nm l = .error e) :
    e.kind = kind ∧ e.ns = ns ∧ e.name = nm ∧
      ∃ nc ∈ l, GetIPPoolFromNetworkName nads pools nc.networkName ns = .error e.cause := by
  induction l with
  | nil => simp [validateNetworkConfigs] at h
  | cons nc rest ih =>
    simp only [validateNetworkConfigs] at h
    cases hg : GetIPPoolFromNetworkName nads pools nc.networkName ns with
    | error e0 =>
      rw [hg] at h
      simp only [Except.error.injEq] at h
      subst h
      exact ⟨rfl, rfl, rfl, nc, List.mem_cons_self nc rest, hg⟩
    | ok p =>
      rw [hg] at h
      obtain ⟨h1, h2, h3, nc', hmem, hc⟩ := ih h
      exact ⟨h1, h2, h3, nc', List.mem_cons_of_mem _ hmem, hc⟩

/-- C9: the admission validator accepts a create exactly when every network
reference in the incoming spec resolves with the resource's own namespace as
fallback (vacuously accepting an empty list), and any rejection carries the
resource's kind, namespace, name and the underlying resolution error of a
failing reference. -/
theorem c9_validator_create (nads : List ((String × String) × NAD))
    (pools : List ((String × String) × IPPool)) (cfg : VmNetCfg) :
    (validatorCreate nads pools cfg = .ok () ↔
      ∀ nc ∈ cfg.networkConfigs,
        exceptOk (GetIPPoolFromNetworkName nads pools nc.networkName cfg.ns) = true) ∧
    (cfg.networkConfigs = [] → validatorCreate nads pools cfg = .ok ()) ∧
    (∀ e, validatorCreate nads pools cfg = .error e →
      e.kind = cfg.kind ∧ e.ns = cfg.ns ∧ e.name = cfg.name ∧
      ∃ nc ∈ cfg.networkConfigs,
        GetIPPoolFromNetworkName nads pools nc.networkName cfg.ns = .error e.cause) := by
  refine ⟨?_, ?_, ?_⟩
  · exact validateNetworkConfigs_ok_iff nads pools cfg.kind cfg.ns cfg.name cfg.networkConfigs
  · intro h
    simp [validatorCreate, h, validateNetworkConfigs]
  · intro e h
    exact validateNetworkConfigs_error nads pools cfg.kind cfg.ns cfg.name cfg.networkConfigs e h

/-- C9 witness: a fully resolvable create and an empty create are both
accepted, via the theorem at concrete cache states. -/
theorem c9_validator_create_witness :
    validatorCreate nadsX poolsX cfgGood = .ok () ∧
    validatorCreate nadsX poolsX cfgEmpty = .ok () := by
  exact ⟨(c9_validator_create nadsX poolsX cfgGood).1.mpr (by decide),
    (c9_validator_create nadsX poolsX cfgEmpty).2.1 rfl⟩

/-- Attaching network names to an empty network-config map leaves it empty. -/
theorem attachNcm_nil (nets : List VMNetwork) : attachNcm [] nets = [] := by
  induction nets with
  | nil => rfl
  | cons n rest ih =>
    simp only [attachNcm, List.foldl_cons]
    cases hm : n.multus with
    | none => simpa only [attachNcm, hm] using ih
    | some m => simpa only [attachNcm, hm, lookupKV] using ih

/-- A VM with no interfaces derives an empty desired mapping. -/
theorem deriveNcm_nil (nads : List ((String × String) × NAD))
    (pools : List ((String × String) × IPPool)) (vm : VM)
    (h : vm.interfaces = []) : deriveNcm nads pools vm = [] := by
  simp [deriveNcm, deriveNcmF, preFilterNcmF, seedNcm, h, attachNcm_nil]

/-- A pass over a live VM whose MAC-annotation step reports no update runs the
network-config reconciliation on the unchanged VM with no prior writes. -/
theorem onChange_no_mac (parse : String → Option (List (String × String)))
    (w : World) (hdel : w.vm.deleted = false)
    (hmac : (applyMACAddressAnn parse w.vm).2 = false) :
    onChange parse w = onChangeCore w.vm [] w := by
  simp [onChange, hdel, hmac]

/-- A pass over a live VM whose MAC-annotation step applied an update first
persists the updated VM and then continues the reconciliation with it. -/
theorem onChange_with_mac (parse : String → Option (List (String × String)))
    (w : World) (hdel : w.vm.deleted = false)
    (hupd : (applyMACAddressAnn parse w.vm).2 = true) :
    onChange parse w =
      onChangeCore (applyMACAddressAnn parse w.vm).1
        [Write.vmUpdate (applyMACAddressAnn parse w.vm).1] w := by
  simp [onChange, hdel, hupd]

/-- Looking up a key just removed from an association list fails. -/
theorem lookupKV_removeKV {β : Type} (l : List (String × β)) (k : String) :
    lookupKV (removeKV l k) k = none := by
  induction l with
  | nil => rfl
  | cons p rest ih =>
    obtain ⟨k', v⟩ := p
    by_cases h : k' = k
    · simpa [removeKV, h] using ih
    · simp [removeKV, h, lookupKV, ih]

/-- When the derived mapping is empty (in particular when the VM has no
interfaces) the reconciliation leaves the stored resource alone and issues no
write. -/
theorem reconcileNetcfg_empty (nads : List ((String × String) × NAD))
    (pools : List ((String × String) × IPPool)) (ns nm : String)
    (ifs : List Interface) (nets : List VMNetwork) (stored : Option VmNetCfg)
    (h : deriveNcmF nads pools ns ifs nets = []) :
    reconcileNetcfg nads pools ns nm ifs nets stored = (stored, []) := by
  by_cases hif : ifs = []
  · simp [reconcileNetcfg, hif]
  · simp [reconcileNetcfg, hif, h]

/-- When the stored spec already equals the derived one, the reconciliation is
a no-op. -/
theorem reconcileNetcfg_noop (nads : List ((String × String) × NAD))
    (pools : List ((String × String) × IPPool)) (ns nm : String)
    (ifs : List Interface) (nets : List VMNetwork) (old : VmNetCfg)
    (hif : ifs ≠ []) (hne : deriveNcmF nads pools ns ifs nets ≠ [])
    (heq : (deriveNcmF nads pools ns ifs nets).map Prod.snd = old.networkConfigs) :
    reconcileNetcfg nads pools ns nm ifs nets (some old) = (some old, []) := by
  simp [reconcileNetcfg, hif, hne, heq]

/-- When no resource is stored, the reconciliation creates one carrying the
derived spec with the condition unset. -/
theorem reconcileNetcfg_create (nads : List ((String × String) × NAD))
    (pools : List ((String × String) × IPPool)) (ns nm : String)
    (ifs : List Interface) (nets : List VMNetwork)
    (hif : ifs ≠ []) (hne : deriveNcmF nads pools ns ifs nets ≠ []) :
    reconcileNetcfg nads pools ns nm ifs nets none =
      (some ⟨"VirtualMachineNetworkConfig", ns, nm,
          (deriveNcmF nads pools ns ifs nets).map Prod.snd, none⟩,
        [Write.netcfgCreate ⟨"VirtualMachineNetworkConfig", ns, nm,
          (deriveNcmF nads pools ns ifs nets).map Prod.snd, none⟩]) := by
  simp [reconcileNetcfg, hif, hne]

/-- When the specs differ and the stored condition is already False, the
reconciliation overwrites the spec in a single update write. -/
theorem reconcileNetcfg_specUpdate (nads : List ((String × String) × NAD))
    (pools : List ((String × String) × IPPool)) (ns nm : String)
    (ifs : List Interface) (nets : List VMNetwork) (old : VmNetCfg)
    (hif : ifs ≠ []) (hne : deriveNcmF nads pools ns ifs nets ≠ [])
    (hdiff : (deriveNcmF nads pools ns ifs nets).map Prod.snd ≠ old.networkConfigs)
    (hcond : isFalseCond old.inSynced = true) :
    reconcileNetcfg nads pools ns nm ifs nets (some old) =
      (some { old with networkConfigs := (deriveNcmF nads pools ns ifs nets).map Prod.snd },
        [Write.netcfgUpdate { old with
          networkConfigs := (deriveNcmF nads pools ns ifs nets).map Prod.snd }]) := by
  simp [reconcileNetcfg, hif, hne, hdiff, hcond]

/-- When the specs differ and the stored condition is not False, the
reconciliation persists a status-only out-of-sync update (keeping the stored
spec) and re-enqueues the VM. -/
theorem reconcileNetcfg_statusFlip (nads : List ((String × String) × NAD))
    (pools : List ((String × String) × IPPool)) (ns nm : String)
    (ifs : List Interface) (nets : List VMNetwork) (old : VmNetCfg)
    (hif : ifs ≠ []) (hne : deriveNcmF nads pools ns ifs nets ≠ [])
    (hdiff : (deriveNcmF nads pools ns ifs nets).map Prod.snd ≠ old.networkConfigs)
    (hcond : isFalseCond old.inSynced = false) :
    reconcileNetcfg nads pools ns nm ifs nets (some old) =
      (some { old with inSynced := some outOfSyncCond },
        [Write.netcfgUpdateStatus { old with
            networkConfigs := (deriveNcmF nads pools ns ifs nets).map Prod.snd
            inSynced := some outOfSyncCond },
          Write.enqueue ns nm]) := by
  simp [reconcileNetcfg, hif, hne, hdiff, hcond]

/-- C1 counterexample: the resource exists, its stored spec differs from the
freshly derived desired mapping (which is empty: the VM's only network has no
pool), and its condition is not False; yet the pass performs no write at all —
in particular no status-only condition flip and no re-enqueue. -/
theorem c1_counterexample :
    wC1x.netcfg = some oldTrue ∧
    (deriveNcm wC1x.nads wC1x.pools wC1x.vm).map Prod.snd ≠ oldTrue.networkConfigs ∧
    isFalseCond oldTrue.inSynced = false ∧
    (onChange pNone wC1x).2 = [] := by
  exact ⟨rfl, by decide, rfl, by decide⟩

/-- C1 (amended): in a pass whose MAC-annotation step performs no VM update
and whose derived desired mapping is non-empty, if the resource exists, its
stored spec differs from the derived mapping, and its condition is not
currently False, then the pass issues exactly a status-only write setting the
condition to False with reason "NetworkConfigChanged" followed by a re-enqueue
of the VM, and the stored resource keeps its old spec (only the condition
changes). -/
theorem c1_out_of_sync_status_flip (parse : String → Option (List (String × String)))
    (w : World) (old : VmNetCfg)
    (hdel : w.vm.deleted = false)
    (hmac : (applyMACAddressAnn parse w.vm).2 = false)
    (hne : deriveNcm w.nads w.pools w.vm ≠ [])
    (hex : w.netcfg = some old)
    (hdiff : (deriveNcm w.nads w.pools w.vm).map Prod.snd ≠ old.networkConfigs)
    (hcond : isFalseCond old.inSynced = false) :
    (onChange parse w).2 =
      [Write.netcfgUpdateStatus { old with
          networkConfigs := (deriveNcm w.nads w.pools w.vm).map Prod.snd
          inSynced := some outOfSyncCond },
        Write.enqueue w.vm.ns w.vm.name] ∧
    (onChange parse w).1.netcfg = some { old with inSynced := some outOfSyncCond } ∧
    outOfSyncCond.status = CStatus.cfalse ∧
    outOfSyncCond.reason = "NetworkConfigChanged" := by
  have hif : ¬ w.vm.interfaces = [] := fun h => hne (deriveNcm_nil w.nads w.pools w.vm h)
  rw [onChange_no_mac parse w hdel hmac]
  simp only [onChangeCore, hex]
  rw [reconcileNetcfg_statusFlip w.nads w.pools w.vm.ns w.vm.name w.vm.interfaces
    w.vm.networks old hif hne hdiff hcond]
  simp [deriveNcm, outOfSyncCond]

/-- C1 witness: the status-only out-of-sync flip at a concrete Synced world
whose VM's network set changed. -/
theorem c1_out_of_sync_status_flip_witness :
    (onChange pNone wSyncDiff).2 =
      [Write.netcfgUpdateStatus { oldDiffTrue with
          networkConfigs := (deriveNcm wSyncDiff.nads wSyncDiff.pools wSyncDiff.vm).map Prod.snd
          inSynced := some outOfSyncCond },
        Write.enqueue wSyncDiff.vm.ns wSyncDiff.vm.name] ∧
    (onChange pNone wSyncDiff).1.netcfg =
      some { oldDiffTrue with inSynced := some outOfSyncCond } ∧
    outOfSyncCond.status = CStatus.cfalse ∧
    outOfSyncCond.reason = "NetworkConfigChanged" := by
  exact c1_out_of_sync_status_flip pNone wSyncDiff oldDiffTrue rfl (by decide) (by decide)
    rfl (by decide) (by decide)

/-- C2 counterexample: the resource exists, its stored spec differs from the
derived desired mapping (which is empty: the VM's only network has no pool),
and its condition is currently False; yet the pass performs no write, in
particular no spec overwrite. -/
theorem c2_counterexample :
    wC2x.netcfg = some oldFalse ∧
    (deriveNcm wC2x.nads wC2x.pools wC2x.vm).map Prod.snd ≠ oldFalse.networkConfigs ∧
    isFalseCond oldFalse.inSynced = true ∧
    (onChange pNone wC2x).2 = [] := by
  exact ⟨rfl, by decide, rfl, by decide⟩

/-- C2 (amended): in a pass whose MAC-annotation step performs no VM update
and whose derived desired mapping is non-empty, if the resource exists, its
stored spec differs from the derived mapping, and its condition is currently
False, then the pass overwrites the stored spec with the derived mapping in a
single update write (the condition is untouched) and performs no
condition/status write and no enqueue. -/
theorem c2_direct_spec_overwrite (parse : String → Option (List (String × String)))
    (w : World) (old : VmNetCfg)
    (hdel : w.vm.deleted = false)
    (hmac : (applyMACAddressAnn parse w.vm).2 = false)
    (hne : deriveNcm w.nads w.pools w.vm ≠ [])
    (hex : w.netcfg = some old)
    (hdiff : (deriveNcm w.nads w.pools w.vm).map Prod.snd ≠ old.networkConfigs)
    (hcond : isFalseCond old.inSynced = true) :
    (onChange parse w).2 =
      [Write.netcfgUpdate { old with
          networkConfigs := (deriveNcm w.nads w.pools w.vm).map Prod.snd }] ∧
    (onChange parse w).1.netcfg =
      some { old with networkConfigs := (deriveNcm w.nads w.pools w.vm).map Prod.snd } := by
  have hif : ¬ w.vm.interfaces = [] := fun h => hne (deriveNcm_nil w.nads w.pools w.vm h)
  rw [onChange_no_mac parse w hdel hmac]
  simp only [onChangeCore, hex]
  rw [reconcileNetcfg_specUpdate w.nads w.pools w.vm.ns w.vm.name w.vm.interfaces
    w.vm.networks old hif hne hdiff hcond]
  simp [deriveNcm]

/-- C2 witness: the direct spec overwrite at a concrete OutOfSync world whose
VM's network set changed again. -/
theorem c2_direct_spec_overwrite_witness :
    (onChange pNone wOosDiff).2 =
      [Write.netcfgUpdate { oldDiffFalse with
          networkConfigs := (deriveNcm wOosDiff.nads wOosDiff.pools wOosDiff.vm).map Prod.snd }] ∧
    (onChange pNone wOosDiff).1.netcfg =
      some { oldDiffFalse with
        networkConfigs := (deriveNcm wOosDiff.nads wOosDiff.pools wOosDiff.vm).map Prod.snd } := by
  exact c2_direct_spec_overwrite pNone wOosDiff oldDiffFalse rfl (by decide) (by decide)
    rfl (by decide) (by decide)

/-- C3 counterexample: the resource exists and its stored spec already equals
the desired mapping the pass derives (from the annotation-updated VM), yet the
pass is not a no-op: it persists a VM update. -/
theorem c3_counterexample :
    wC3x.netcfg = some oldEq ∧
    oldEq.networkConfigs =
      (deriveNcm wC3x.nads wC3x.pools (applyMACAddressAnn pMac wC3x.vm).1).map Prod.snd ∧
    (onChange pMac wC3x).2 = [Write.vmUpdate (applyMACAddressAnn pMac wC3x.vm).1] := by
  exact ⟨rfl, by decide, by decide⟩

/-- C3 (amended): in a pass whose MAC-annotation step performs no VM update,
if the resource exists and its stored spec already equals the derived desired
mapping, the pass performs no write and leaves the world unchanged, so an
immediate second pass (no intervening change) also performs no write. -/
theorem c3_idempotent_noop (parse : String → Option (List (String × String)))
    (w : World) (old : VmNetCfg)
    (hdel : w.vm.deleted = false)
    (hmac : (applyMACAddressAnn parse w.vm).2 = false)
    (hex : w.netcfg = some old)
    (heq : old.networkConfigs = (deriveNcm w.nads w.pools w.vm).map Prod.snd) :
    (onChange parse w).2 = [] ∧
    (onChange parse w).1 = w ∧
    (onChange parse (onChange parse w).1).2 = [] := by
  have h1 : onChange parse w = (w, []) := by
    rw [onChange_no_mac parse w hdel hmac]
    simp only [onChangeCore, hex]
    by_cases hd : deriveNcm w.nads w.pools w.vm = []
    · rw [reconcileNetcfg_empty w.nads w.pools w.vm.ns w.vm.name w.vm.interfaces
        w.vm.networks (some old) hd]
      rw [← hex]
      rfl
    · have hif : ¬ w.vm.interfaces = [] := fun h => hd (deriveNcm_nil w.nads w.pools w.vm h)
      rw [reconcileNetcfg_noop w.nads w.pools w.vm.ns w.vm.name w.vm.interfaces
        w.vm.networks old hif hd heq.symm]
      rw [← hex]
      rfl
  refine ⟨by rw [h1], by rw [h1], ?_⟩
  rw [h1]
  show (onChange parse w).2 = []
  rw [h1]

/-- C3 witness: the no-op pass and its write-free immediate re-run at a
concrete world whose stored spec equals the derived mapping. -/
theorem c3_idempotent_noop_witness :
    (onChange pNone wEqRes).2 = [] ∧
    (onChange pNone wEqRes).1 = wEqRes ∧
    (onChange pNone (onChange pNone wEqRes).1).2 = [] := by
  exact c3_idempotent_noop pNone wEqRes oldTrue rfl (by decide) rfl (by decide)

/-- C4 counterexample: for a VM whose annotation supplies a MAC to an
interface lacking one, the first pass persists the VM update and, in the same
pass, also creates the network-config resource — it does not stop after the VM
update. -/
theorem c4_counterexample :
    (onChange pMac wC4x).2 = [Write.vmUpdate vmMacApplied, Write.netcfgCreate cfgMac] := by
  decide

/-- C4 (amended): in a pass whose MAC-annotation step applied at least one MAC
from the annotation, the pass persists the VM update and then continues with
the updated VM: when the derived mapping is non-empty and no resource exists,
the same pass also creates the network-config resource, rather than stopping
and leaving the creation to a follow-up pass. -/
theorem c4_mac_update_same_pass (parse : String → Option (List (String × String)))
    (w : World)
    (hdel : w.vm.deleted = false)
    (hupd : (applyMACAddressAnn parse w.vm).2 = true)
    (hne : deriveNcm w.nads w.pools (applyMACAddressAnn parse w.vm).1 ≠ [])
    (habs : w.netcfg = none) :
    (onChange parse w).2 =
      [Write.vmUpdate (applyMACAddressAnn parse w.vm).1,
        Write.netcfgCreate (prepareVmNetCfg (applyMACAddressAnn parse w.vm).1
          (deriveNcm w.nads w.pools (applyMACAddressAnn parse w.vm).1))] ∧
    (onChange parse w).1.netcfg =
      some (prepareVmNetCfg (applyMACAddressAnn parse w.vm).1
        (deriveNcm w.nads w.pools (applyMACAddressAnn parse w.vm).1)) := by
  have hif : ¬ (applyMACAddressAnn parse w.vm).1.interfaces = [] :=
    fun h => hne (deriveNcm_nil _ _ _ h)
  rw [onChange_with_mac parse w hdel hupd]
  simp only [onChangeCore, habs]
  rw [reconcileNetcfg_create w.nads w.pools (applyMACAddressAnn parse w.vm).1.ns
    (applyMACAddressAnn parse w.vm).1.name (applyMACAddressAnn parse w.vm).1.interfaces
    (applyMACAddressAnn parse w.vm).1.networks hif hne]
  simp [prepareVmNetCfg, deriveNcm]

/-- C4 witness: the same-pass VM update plus creation at the concrete
annotated VM. -/
theorem c4_mac_update_same_pass_witness :
    (onChange pMac wC4x).2 =
      [Write.vmUpdate (applyMACAddressAnn pMac wC4x.vm).1,
        Write.netcfgCreate (prepareVmNetCfg (applyMACAddressAnn pMac wC4x.vm).1
          (deriveNcm wC4x.nads wC4x.pools (applyMACAddressAnn pMac wC4x.vm).1))] ∧
    (onChange pMac wC4x).1.netcfg =
      some (prepareVmNetCfg (applyMACAddressAnn pMac wC4x.vm).1
        (deriveNcm wC4x.nads wC4x.pools (applyMACAddressAnn pMac wC4x.vm).1)) := by
  exact c4_mac_update_same_pass pMac wC4x rfl (by decide) (by decide) rfl

/-- C5: every entry of the derived desired mapping resolves to a pool (with
the VM's namespace as fallback), every pre-filter entry whose network resolves
survives the filtering (so exactly the resolving entries remain), and when the
mapping filters down to empty a pass whose MAC step made no update performs no
write at all — in particular it creates no network-config resource. The pass
has no error path here: `hasIPPool` swallows resolution failures, as the
source does. -/
theorem c5_unresolved_filtered (parse : String → Option (List (String × String)))
    (w : World)
    (hdel : w.vm.deleted = false)
    (hmac : (applyMACAddressAnn parse w.vm).2 = false) :
    (∀ p ∈ deriveNcm w.nads w.pools w.vm,
      exceptOk (GetIPPoolFromNetworkName w.nads w.pools p.2.networkName w.vm.ns) = true) ∧
    (∀ p ∈ preFilterNcm w.vm,
      hasIPPool w.nads w.pools w.vm.ns p.2.networkName = true →
        p ∈ deriveNcm w.nads w.pools w.vm) ∧
    (deriveNcm w.nads w.pools w.vm = [] → (onChange parse w).2 = []) := by
  refine ⟨?_, ?_, ?_⟩
  · intro p hp
    simp only [deriveNcm, deriveNcmF] at hp
    have h' := (List.mem_filter.mp hp).2
    simpa [hasIPPool] using h'
  · intro p hp hres
    simp only [deriveNcm, deriveNcmF]
    exact List.mem_filter.mpr ⟨hp, hres⟩
  · intro hd
    rw [onChange_no_mac parse w hdel hmac]
    simp only [onChangeCore]
    rw [reconcileNetcfg_empty w.nads w.pools w.vm.ns w.vm.name w.vm.interfaces
      w.vm.networks w.netcfg hd]
    rfl

/-- C5 witness: a VM declaring two networks of which only net1 resolves keeps
exactly the resolving entry, every kept entry resolves, and a world whose
mapping filters to empty issues no write. -/
theorem c5_unresolved_filtered_witness :
    deriveNcm nadsX poolsX vmTwoNets = [("nic1", ⟨"aa:aa", "net1"⟩)] ∧
    (∀ p ∈ deriveNcm wTwoNets.nads wTwoNets.pools wTwoNets.vm,
      exceptOk (GetIPPoolFromNetworkName wTwoNets.nads wTwoNets.pools p.2.networkName
        wTwoNets.vm.ns) = true) ∧
    (onChange pNone wEmptyD).2 = [] := by
  refine ⟨by decide, (c5_unresolved_filtered pNone wTwoNets rfl (by decide)).1, ?_⟩
  exact (c5_unresolved_filtered pNone wEmptyD rfl (by decide)).2.2 (by decide)

/-- C10: a present but undecodable MAC-override annotation value makes the
MAC-application step report no update and return the VM unchanged (the source
only logs the decode error and its error return is nil on every path), and the
pass continues exactly as for a VM without the annotation: it issues the same
writes and produces the same stored resource. -/
theorem c10_malformed_annot_ignored (parse : String → Option (List (String × String)))
    (w : World) (a : String)
    (hdel : w.vm.deleted = false)
    (hl : lookupKV w.vm.annots macAddressAnnKey = some a)
    (hne : a ≠ "")
    (hp : parse a = none) :
    applyMACAddressAnn parse w.vm = (w.vm, false) ∧
    onChange parse w = onChangeCore w.vm [] w ∧
    (onChange parse w).2 = (onChange parse { w with vm := eraseMacAnn w.vm }).2 ∧
    (onChange parse w).1.netcfg = (onChange parse { w with vm := eraseMacAnn w.vm }).1.netcfg := by
  have hA : applyMACAddressAnn parse w.vm = (w.vm, false) := by
    simp [applyMACAddressAnn, hl, hne, hp]
  have hmac : (applyMACAddressAnn parse w.vm).2 = false := by rw [hA]
  have hchain := onChange_no_mac parse w hdel hmac
  have hA2 : (applyMACAddressAnn parse (eraseMacAnn w.vm)).2 = false := by
    simp [applyMACAddressAnn, eraseMacAnn, lookupKV_removeKV]
  have hdel2 : (eraseMacAnn w.vm).deleted = false := hdel
  have hchain2 : onChange parse { w with vm := eraseMacAnn w.vm } =
      onChangeCore (eraseMacAnn w.vm) [] { w with vm := eraseMacAnn w.vm } :=
    onChange_no_mac parse { w with vm := eraseMacAnn w.vm } hdel2 hA2
  refine ⟨hA, hchain, ?_, ?_⟩
  · rw [hchain, hchain2]
    rfl
  · rw [hchain, hchain2]
    rfl

/-- C10 witness: the undecodable annotation value at a concrete VM behaves
exactly as if absent. -/
theorem c10_malformed_annot_ignored_witness :
    applyMACAddressAnn pNone vmBadAnn = (vmBadAnn, false) ∧
    (onChange pNone wBadAnn).2 = (onChange pNone { wBadAnn with vm := eraseMacAnn wBadAnn.vm }).2 ∧
    (onChange pNone wBadAnn).1.netcfg =
      (onChange pNone { wBadAnn with vm := eraseMacAnn wBadAnn.vm }).1.netcfg := by
  have h := c10_malformed_annot_ignored pNone wBadAnn "oops" rfl (by decide) (by decide) rfl
  exact ⟨h.1, h.2.2.1, h.2.2.2⟩
